import Mathlib

/-!
Verification development for the AI-Annotation-Tool repository.

The TypeScript sources are shallowly embedded as Lean definitions:

* JS strings are embedded as Lean `String` (a structure holding `data :
  List Char`); the JS primitives used by the code (`trim`, `includes`,
  `split('\n')`, `length`, `toLowerCase`, `lastIndexOf`, `substring`)
  are re-implemented below over `String.data`.
* A VS Code `TextDocument` is embedded as its list of lines plus the
  identity fields the code reads (`uri.toString()`, `uri.scheme`,
  `fileName`, `languageId`, `isClosed`).
* The mutable per-engine state (`suppressedDocs`, `buffers`) and the
  writer state (`cooldowns`, `snapshots`) become explicit state records
  threaded through the functions; `Date.now()` becomes an explicit
  `now : Nat` argument.
* `setTimeout`-based flush timers are modelled by treating a timer
  firing as an explicit call of `flushBuffer`; callbacks registered via
  `onResult` are modelled by returning the list of emitted
  `DetectionResult`s from each entry point.
* Asynchronous steps (`openTextDocument`, `editor.edit`, `doc.save`)
  are modelled as a sequential, single-threaded execution in which the
  opened document is passed in explicitly and the atomic edit succeeds.
-/

/-! ## JS string primitives over `String.data` -/

/-- JS whitespace test used by `trim` (ASCII fragment; all inputs in the
repository's heuristics are ASCII). -/
def isWS (c : Char) : Bool := c.isWhitespace

/-- Trim whitespace from both ends of a char list, as JS `String.trim`. -/
def trimChars (l : List Char) : List Char :=
  ((l.dropWhile isWS).reverse.dropWhile isWS).reverse

/-- JS `s.trim()`. -/
def jsTrim (s : String) : String := String.mk (trimChars s.data)

/-- Contiguous-substring test on char lists. -/
def listIsInfixOf (pat : List Char) : List Char → Bool
  | [] => pat.isEmpty
  | c :: rest => pat.isPrefixOf (c :: rest) || listIsInfixOf pat rest

/-- JS `s.includes(pat)`. -/
def containsSubstr (s pat : String) : Bool := listIsInfixOf pat.data s.data

/-- `DetectionEngine.countLines`: one plus the number of newline chars. -/
def countLines (text : String) : Nat := 1 + text.data.count '\n'

/-- Accumulator-style splitter for `splitLines`. -/
def splitLinesAux : List Char → List Char → List String
  | [], acc => [String.mk acc.reverse]
  | c :: rest, acc =>
    if c = '\n' then String.mk acc.reverse :: splitLinesAux rest []
    else splitLinesAux rest (c :: acc)

/-- JS `s.split('\n')`. -/
def splitLines (s : String) : List String := splitLinesAux s.data []

/-- JS `s.toLowerCase()` (ASCII case folding). -/
def jsToLower (s : String) : String := String.mk (s.data.map Char.toLower)

/-- `TextDocument.getText()` reconstructed from the line list. -/
def textOf (lines : List String) : String := String.intercalate "\n" lines

/-- JS `s.lastIndexOf(pat)`: greatest index at which `pat` starts, `-1`
if absent. -/
def jsLastIndexOf (s pat : String) : Int :=
  match ((List.range (s.data.length + 1)).reverse.find?
      (fun k => pat.data.isPrefixOf (s.data.drop k))) with
  | some k => (k : Int)
  | none => -1

/-- JS `s.substring(start)` (negative start clamps to 0). -/
def jsSubstringFrom (s : String) (start : Int) : String :=
  String.mk (s.data.drop start.toNat)

/-! ## Data model (`src/types.ts`) -/

inductive InsertionClassification where
  | HUMAN
  | AI_LIKELY
  | PASTED
  | IGNORED
deriving DecidableEq, Repr

structure AnnotatorConfig where
  enabled : Bool
  charsPerSecondThreshold : Nat
  minCharsForDetection : Nat
  envFileName : String
deriving DecidableEq, Repr

structure CommentStyle where
  linePfx : String
  blockStart : Option String := none
  blockEnd : Option String := none
deriving DecidableEq, Repr

/-- The fields of a `vscode.TextDocument` that the code reads. -/
structure TextDocument where
  uriString : String
  scheme : String
  fileName : String
  languageId : String
  lines : List String
  isClosed : Bool := false
deriving DecidableEq, Repr

/-- One `vscode.TextDocumentContentChangeEvent`. -/
structure ChangeEvent where
  text : String
  rangeLength : Nat
  startLine : Nat
deriving DecidableEq, Repr

structure DetectionResult where
  classification : InsertionClassification
  document : TextDocument
  line : Nat
  text : String
  reason : String
deriving DecidableEq, Repr

/-! ## Markers (`src/annotationBuilder.ts`) -/

def ANNOTATION_MARKER : String := "AI_ASSISTED: true"

def ANNOTATION_END_MARKER : String := "AI_ASSISTED_END"

/-! ## Clipboard heuristic (`ClipboardDetector.wasPasted`) -/

structure ClipboardState where
  pasteFlag : Bool
  lastClipboard : String
deriving DecidableEq, Repr

def wasPasted (cs : ClipboardState) (insertedText : String) : Bool :=
  if cs.pasteFlag then true
  else if cs.lastClipboard.length > 3 && insertedText.length > 3 &&
      jsTrim insertedText == jsTrim cs.lastClipboard then true
  else if cs.lastClipboard.length > 20 &&
      containsSubstr insertedText (jsTrim cs.lastClipboard) then true
  else false

/-! ## Assoc-list maps (JS `Map.set` / `get` / `delete`) -/

def mapSet {β : Type} (m : List (String × β)) (k : String) (v : β) :
    List (String × β) :=
  (k, v) :: m.filter (fun p => !(p.1 == k))

def mapDelete {β : Type} (m : List (String × β)) (k : String) :
    List (String × β) :=
  m.filter (fun p => !(p.1 == k))

/-! ## Detection engine (`src/detectionEngine.ts`) -/

structure PendingBuffer where
  document : TextDocument
  totalText : String
  totalChars : Nat
  startLine : Nat
  endLine : Nat
  firstTime : Nat
  lastTime : Nat
  changeCount : Nat
deriving DecidableEq, Repr

structure EngineState where
  config : AnnotatorConfig
  clipboard : ClipboardState
  suppressedDocs : List String
  buffers : List (String × PendingBuffer)
deriving DecidableEq, Repr

def COALESCE_MS : Nat := 350

def MIN_COALESCED_CHARS : Nat := 8

/-- `DetectionEngine.getBufferKey`. -/
def getBufferKey (doc : TextDocument) : String := jsToLower doc.fileName

/-- `DetectionEngine.emitResult`: what is handed to the `onResult`
callback (always classification `AI_LIKELY`). -/
def mkResult (doc : TextDocument) (line : Nat) (text reason : String) :
    DetectionResult :=
  { classification := InsertionClassification.AI_LIKELY
    document := doc
    line := line
    text := text
    reason := reason }

/-- `DetectionEngine.flushBuffer` (timer bookkeeping elided: a timer
firing is modelled as an explicit call of this function). -/
def flushBuffer (st : EngineState) (bufKey : String) :
    EngineState × List DetectionResult :=
  match st.buffers.lookup bufKey with
  | none => (st, [])
  | some buf =>
    if (jsTrim buf.totalText).length < MIN_COALESCED_CHARS then
      ({ st with buffers := mapDelete st.buffers bufKey }, [])
    else if buf.changeCount == 1 && buf.totalChars < 40 &&
        countLines buf.totalText == 1 then
      ({ st with buffers := mapDelete st.buffers bufKey }, [])
    else if buf.changeCount ≥ 2 || (jsTrim buf.totalText).length ≥ 20 then
      ({ st with buffers := mapDelete st.buffers bufKey },
        [mkResult buf.document buf.startLine buf.totalText "Coalesced"])
    else ({ st with buffers := mapDelete st.buffers bufKey }, [])

/-- The fresh buffer created by `processChange` on a buffer-starting
change (`this.buffers.set(bufKey, {...})`). -/
def newBuf (doc : TextDocument) (change : ChangeEvent) (now : Nat) :
    PendingBuffer :=
  { document := doc, totalText := change.text
    totalChars := change.text.length
    startLine := change.startLine
    endLine := change.startLine + countLines change.text - 1
    firstTime := now, lastTime := now, changeCount := 1 }

/-- The accumulation performed on an existing buffer hit within the
coalescing window. -/
def accumBuf (existing : PendingBuffer) (change : ChangeEvent) (now : Nat) :
    PendingBuffer :=
  { existing with
    totalText := existing.totalText ++ change.text
    totalChars := existing.totalChars + change.text.length
    lastTime := now
    endLine := max existing.endLine
      (change.startLine + countLines change.text - 1)
    changeCount := existing.changeCount + 1 }

/-- The coalescing tail of `processChange` (the code after the instant
check): extend a recent buffer, or flush the old/absent one and start a
new buffer. -/
def coalesceStep (st : EngineState) (doc : TextDocument)
    (change : ChangeEvent) (now : Nat) :
    EngineState × List DetectionResult :=
  match st.buffers.lookup (getBufferKey doc) with
  | some existing =>
    if now - existing.lastTime < COALESCE_MS then
      ({ st with
          buffers := (mapSet st.buffers (getBufferKey doc)
            (accumBuf existing change now)) }, [])
    else
      ({ (flushBuffer st (getBufferKey doc)).1 with
          buffers := (mapSet (flushBuffer st (getBufferKey doc)).1.buffers
            (getBufferKey doc) (newBuf doc change now)) },
        (flushBuffer st (getBufferKey doc)).2)
  | none =>
    ({ (flushBuffer st (getBufferKey doc)).1 with
        buffers := (mapSet (flushBuffer st (getBufferKey doc)).1.buffers
          (getBufferKey doc) (newBuf doc change now)) },
      (flushBuffer st (getBufferKey doc)).2)

/-- `DetectionEngine.processChange`. Returns the updated state and the
results passed to the detection callback during this call. -/
def processChange (st : EngineState) (doc : TextDocument)
    (change : ChangeEvent) (now : Nat) :
    EngineState × List DetectionResult :=
  if !st.config.enabled then (st, [])
  else if doc.scheme == "output" || doc.scheme == "debug" ||
      doc.scheme == "git" || doc.scheme == "vscode" ||
      doc.scheme == "search-editor" ||
      containsSubstr doc.fileName "extension-output" then (st, [])
  else if st.suppressedDocs.contains doc.uriString then (st, [])
  else if change.text.length == 0 then (st, [])
  else if containsSubstr change.text ANNOTATION_MARKER ||
      containsSubstr change.text ANNOTATION_END_MARKER then (st, [])
  else if change.text.length == 1 && change.rangeLength == 0 then (st, [])
  else if wasPasted st.clipboard change.text then (st, [])
  else if (jsTrim change.text).length ≥ 30 && countLines change.text ≥ 3 then
    -- NOTE: the source passes `uri` here, not `getBufferKey doc`.
    ((flushBuffer st doc.uriString).1,
      (flushBuffer st doc.uriString).2 ++
        [mkResult doc change.startLine change.text "Instant"])
  else coalesceStep st doc change now

/-- The text after the last end marker, as computed by
`processFileChange` (`text.substring(lastIndexOf + marker length)`). -/
def afterLastEnd (text : String) : String :=
  jsTrim (jsSubstringFrom text
    (jsLastIndexOf text ANNOTATION_END_MARKER +
      (ANNOTATION_END_MARKER.length : Int)))

def processFileChange (st : EngineState) (doc : TextDocument) :
    EngineState × List DetectionResult :=
  if !st.config.enabled then (st, [])
  else if st.suppressedDocs.contains doc.uriString then (st, [])
  else if (jsTrim (textOf doc.lines)).length <
      st.config.minCharsForDetection then (st, [])
  else if containsSubstr (textOf doc.lines) ANNOTATION_MARKER then
    if (afterLastEnd (textOf doc.lines)).length < 20 then (st, [])
    else (st, [mkResult doc 0 (afterLastEnd (textOf doc.lines))
      "File watcher after last block"])
  else if countLines (textOf doc.lines) < 3 then (st, [])
  else (st, [mkResult doc 0 (textOf doc.lines) "File watcher unmarked"])

/-! ## Comment styles (`src/annotationBuilder.ts`) -/

def commentStyles (languageId : String) : Option CommentStyle :=
  if languageId == "javascript" then some { linePfx := "//" }
  else if languageId == "typescript" then some { linePfx := "//" }
  else if languageId == "javascriptreact" then some { linePfx := "//" }
  else if languageId == "typescriptreact" then some { linePfx := "//" }
  else if languageId == "java" then some { linePfx := "//" }
  else if languageId == "c" then some { linePfx := "//" }
  else if languageId == "cpp" then some { linePfx := "//" }
  else if languageId == "csharp" then some { linePfx := "//" }
  else if languageId == "go" then some { linePfx := "//" }
  else if languageId == "rust" then some { linePfx := "//" }
  else if languageId == "swift" then some { linePfx := "//" }
  else if languageId == "kotlin" then some { linePfx := "//" }
  else if languageId == "dart" then some { linePfx := "//" }
  else if languageId == "scala" then some { linePfx := "//" }
  else if languageId == "php" then some { linePfx := "//" }
  else if languageId == "python" then some { linePfx := "#" }
  else if languageId == "ruby" then some { linePfx := "#" }
  else if languageId == "shellscript" then some { linePfx := "#" }
  else if languageId == "bash" then some { linePfx := "#" }
  else if languageId == "perl" then some { linePfx := "#" }
  else if languageId == "r" then some { linePfx := "#" }
  else if languageId == "yaml" then some { linePfx := "#" }
  else if languageId == "dockerfile" then some { linePfx := "#" }
  else if languageId == "makefile" then some { linePfx := "#" }
  else if languageId == "powershell" then some { linePfx := "#" }
  else if languageId == "coffeescript" then some { linePfx := "#" }
  else if languageId == "elixir" then some { linePfx := "#" }
  else if languageId == "sql" then some { linePfx := "--" }
  else if languageId == "lua" then some { linePfx := "--" }
  else if languageId == "haskell" then some { linePfx := "--" }
  else if languageId == "clojure" then some { linePfx := ";;" }
  else if languageId == "lisp" then some { linePfx := ";;" }
  else if languageId == "scheme" then some { linePfx := ";;" }
  else if languageId == "html" then
    some { linePfx := "", blockStart := some "<!--", blockEnd := some "-->" }
  else if languageId == "xml" then
    some { linePfx := "", blockStart := some "<!--", blockEnd := some "-->" }
  else if languageId == "svg" then
    some { linePfx := "", blockStart := some "<!--", blockEnd := some "-->" }
  else if languageId == "css" then
    some { linePfx := "", blockStart := some "/*", blockEnd := some "*/" }
  else if languageId == "scss" then some { linePfx := "//" }
  else if languageId == "less" then some { linePfx := "//" }
  else if languageId == "matlab" then some { linePfx := "%" }
  else if languageId == "latex" then some { linePfx := "%" }
  else if languageId == "erlang" then some { linePfx := "%" }
  else if languageId == "fortran" then some { linePfx := "!" }
  else if languageId == "vb" then some { linePfx := "'" }
  else none

def DEFAULT_STYLE : CommentStyle := { linePfx := "//" }

/-- `buildAnnotationStart`: the start block inserted before AI code. -/
def buildAnnotationStart (languageId employeeId : String) : String :=
  let style := (commentStyles languageId).getD DEFAULT_STYLE
  let ls := ["AI_ASSISTED: true", "AI_TOOL: GitHub Copilot",
             "EMPLOYEE_ID: " ++ employeeId]
  match style.blockStart, style.blockEnd with
  | some bs, some be =>
    String.intercalate "\n" ([bs] ++ ls.map (fun l => "  " ++ l) ++ [be, ""])
  | _, _ =>
    String.intercalate "\n" (ls.map (fun l => style.linePfx ++ " " ++ l)) ++ "\n"

/-- `buildAnnotationEnd`: the end marker inserted after AI code. -/
def buildAnnotationEnd (languageId : String) : String :=
  let style := (commentStyles languageId).getD DEFAULT_STYLE
  match style.blockStart, style.blockEnd with
  | some bs, some be => bs ++ " AI_ASSISTED_END " ++ be ++ "\n"
  | _, _ => style.linePfx ++ " AI_ASSISTED_END\n"

/-! ## Annotation writer (`src/annotationWriter.ts`) -/

structure WriterState where
  employeeId : String
  cooldowns : List (String × Nat)
  snapshots : List (String × String)
  /-- Mirrors `engine.suppressedDocs`, which the writer mutates. -/
  suppressedDocs : List String
deriving DecidableEq, Repr

def COOLDOWN_MS : Nat := 2000

/-- First loop of `isRangeAnnotated`: scan the file pairing each first
unmatched start-marker line with the next end-marker line. -/
def findBlocksAux : List String → Nat → Option Nat → List (Nat × Nat)
  | [], _, _ => []
  | l :: rest, i, bs =>
    if containsSubstr l ANNOTATION_MARKER && bs.isNone then
      findBlocksAux rest (i + 1) (some i)
    else
      match bs with
      | some b =>
        if containsSubstr l ANNOTATION_END_MARKER then
          (b, i) :: findBlocksAux rest (i + 1) none
        else findBlocksAux rest (i + 1) (some b)
      | none => findBlocksAux rest (i + 1) none

def findBlocks (lines : List String) : List (Nat × Nat) :=
  findBlocksAux lines 0 none

/-- `AnnotationWriter.isRangeAnnotated`. -/
def isRangeAnnotated (lines : List String) (startLine endLine : Nat) : Bool :=
  ((findBlocks lines).any fun b =>
      decide (b.1 ≤ startLine) && decide (endLine ≤ b.2 + 1)) ||
  ((List.range' (startLine - 4)
      (min (lines.length - 1) startLine + 1 - (startLine - 4))).any fun i =>
    containsSubstr (lines.getD i "") ANNOTATION_MARKER)

/-- Trimmed, non-empty snapshot lines (the multiset `oldLineCounts`). -/
def oldTrimmedLines (oldText : String) : List String :=
  ((splitLines oldText).map jsTrim).filter (fun t => !(t.length == 0))

/-- Main loop of `findNewCodeRange`: walk the current lines consuming
multiset occurrences of old lines; track first/last new indices. -/
def findNewLoop (olds : List String) :
    List String → Nat → List String → Option Nat → Option Nat →
    Option Nat × Option Nat
  | [], _, _, firstNew, lastNew => (firstNew, lastNew)
  | l :: rest, i, used, firstNew, lastNew =>
    if (jsTrim l).length == 0 then
      findNewLoop olds rest (i + 1) used firstNew lastNew
    else if containsSubstr (jsTrim l) ANNOTATION_MARKER ||
        containsSubstr (jsTrim l) ANNOTATION_END_MARKER then
      findNewLoop olds rest (i + 1) used firstNew lastNew
    else if used.count (jsTrim l) < olds.count (jsTrim l) then
      findNewLoop olds rest (i + 1) (jsTrim l :: used) firstNew lastNew
    else
      findNewLoop olds rest (i + 1) used
        (if firstNew.isNone then some i else firstNew) (some i)

/-- The non-blank lines of the reported inserted text
(`insertedText.split('\n').filter(...)`). -/
def insLines (insertedText : String) : List String :=
  (splitLines insertedText).filter (fun l => 0 < (jsTrim l).length)

/-- The backward scan of `findByInsertedText`: last index `i ≥ start`
whose trimmed line equals `lastL`. -/
def scanBack (currentLines : List String) (start : Nat) (lastL : String) :
    Option Nat :=
  ((List.range currentLines.length).reverse.filter
    (fun i => start ≤ i)).find?
    (fun i => jsTrim (currentLines.getD i "") == lastL)

def findByInsertedText (currentLines : List String) (insertedText : String) :
    Nat × Nat :=
  if (insLines insertedText).length == 0 then (0, 0)
  else
    match currentLines.findIdx?
        (fun l => jsTrim l == jsTrim ((insLines insertedText).headD "")) with
    | none => (0, 0)
    | some startLine =>
      match scanBack currentLines startLine
          (jsTrim ((insLines insertedText).getLastD "")) with
      | some i => (startLine, i + 1)
      | none => (startLine, startLine + (insLines insertedText).length)

/-- `AnnotationWriter.findNewCodeRange`. -/
def findNewCodeRange (docLines : List String) (oldText insertedText : String) :
    Nat × Nat :=
  if (jsTrim oldText).length == 0 then (0, docLines.length)
  else
    match findNewLoop (oldTrimmedLines oldText) docLines 0 [] none none with
    | (none, _) => findByInsertedText docLines insertedText
    | (some f, lastNew) =>
      (f, match lastNew with | some l => l + 1 | none => 0)

/-- `AnnotationWriter.resolveRealFile` (successful `Uri.file` modelled
as prefixing the fs path). -/
def resolveRealFile (doc : TextDocument) : Option String :=
  if doc.scheme == "file" || doc.scheme == "untitled" then some doc.uriString
  else if !(doc.fileName == "") &&
      !(containsSubstr doc.fileName "extension-output") then
    some ("file://" ++ doc.fileName)
  else none

/-- The atomic two-position edit of `doAnnotate`, at line granularity:
the end block is inserted at line `e` (or appended after the final line
with a leading newline when `e` is past the end), the start block at
line `s`; both blocks end in a newline so they contribute their split
lines minus the trailing empty string. -/
def applyEdit (lines : List String) (s e : Nat)
    (startBlock endBlock : String) : List String :=
  let sLines := (splitLines startBlock).dropLast
  let eLines := (splitLines endBlock).dropLast
  if e < lines.length then
    lines.take s ++ sLines ++ (lines.drop s).take (e - s) ++ eLines ++
      lines.drop e
  else
    lines.take s ++ sLines ++ lines.drop s ++ eLines ++ [""]

/-- The resolved new-code range used by `doAnnotate` for a given writer
state, opened document and result. -/
def resolvedRange (w : WriterState) (doc : TextDocument) (r : DetectionResult)
    (key : String) : Nat × Nat :=
  findNewCodeRange doc.lines ((w.snapshots.lookup key).getD "") r.text

/-- The edited document produced by `doAnnotate`'s write path. -/
def editedLines (w : WriterState) (doc : TextDocument) (r : DetectionResult)
    (key : String) : List String :=
  applyEdit doc.lines (resolvedRange w doc r key).1 (resolvedRange w doc r key).2
    (buildAnnotationStart doc.languageId w.employeeId)
    (buildAnnotationEnd doc.languageId)

def doAnnotate (w : WriterState) (r : DetectionResult) (doc : TextDocument)
    (key : String) (now : Nat) : WriterState × List String × Bool :=
  if doc.isClosed then (w, doc.lines, false)
  else if (resolvedRange w doc r key).2 ≤ (resolvedRange w doc r key).1 then
    (w, doc.lines, false)
  else if isRangeAnnotated doc.lines (resolvedRange w doc r key).1
      (resolvedRange w doc r key).2 then (w, doc.lines, false)
  else
    ({ w with
        suppressedDocs := key :: r.document.uriString :: w.suppressedDocs
        cooldowns := mapSet w.cooldowns key now
        snapshots := mapSet w.snapshots key (textOf (editedLines w doc r key)) },
      editedLines w doc r key, true)

/-- `AnnotationWriter.annotate`, sequential model (the per-file promise
chain serialises jobs; a call is modelled as running to completion). -/
def annotate (w : WriterState) (r : DetectionResult) (doc : TextDocument)
    (now : Nat) : WriterState × List String × Bool :=
  match resolveRealFile r.document with
  | none => (w, doc.lines, false)
  | some key =>
    if now - (w.cooldowns.lookup key).getD 0 < COOLDOWN_MS then
      (w, doc.lines, false)
    else doAnnotate w r doc key now

/-! ## Helper lemmas about the string primitives -/

theorem strMk_data (s : String) : String.mk s.data = s := rfl

theorem dropWhile_eq_self_of_all {p : Char → Bool} :
    ∀ {l : List Char}, (∀ c ∈ l, p c = false) → l.dropWhile p = l := by
  intro l h
  cases l with
  | nil => rfl
  | cons c rest =>
    simp only [List.dropWhile_cons]
    rw [h c (by simp)]
    simp

theorem jsTrim_eq_self {s : String} (h : ∀ c ∈ s.data, isWS c = false) :
    jsTrim s = s := by
  unfold jsTrim trimChars
  rw [dropWhile_eq_self_of_all h,
    dropWhile_eq_self_of_all (by intro c hc; exact h c (by simpa using hc)),
    List.reverse_reverse, strMk_data]

theorem length_le_of_isPrefixOf :
    ∀ {l₁ l₂ : List Char}, l₁.isPrefixOf l₂ = true → l₁.length ≤ l₂.length := by
  intro l₁
  induction l₁ with
  | nil => intro l₂ _; simp
  | cons a as ih =>
    intro l₂ h
    cases l₂ with
    | nil => simp [List.isPrefixOf] at h
    | cons b bs =>
      simp only [List.isPrefixOf, Bool.and_eq_true] at h
      simpa using ih h.2

theorem length_le_of_listIsInfixOf {pat : List Char} :
    ∀ {l : List Char}, listIsInfixOf pat l = true → pat.length ≤ l.length := by
  intro l
  induction l with
  | nil =>
    intro h
    simp only [listIsInfixOf, List.isEmpty_iff] at h
    simp [h]
  | cons c rest ih =>
    intro h
    simp only [listIsInfixOf, Bool.or_eq_true] at h
    rcases h with h | h
    · exact length_le_of_isPrefixOf h
    · exact Nat.le_trans (ih h) (by simp)

theorem containsSubstr_eq_false_of_lt {s pat : String}
    (h : s.data.length < pat.data.length) : containsSubstr s pat = false := by
  unfold containsSubstr
  cases hc : listIsInfixOf pat.data s.data with
  | false => rfl
  | true => exact absurd (length_le_of_listIsInfixOf hc) (by omega)

theorem lookup_mapSet_self {β : Type} (m : List (String × β)) (k : String)
    (v : β) : (mapSet m k v).lookup k = some v := by
  simp [mapSet, List.lookup]

theorem flushBuffer_lookup_none {st : EngineState} {k : String}
    (h : st.buffers.lookup k = none) : flushBuffer st k = (st, []) := by
  unfold flushBuffer
  rw [h]

theorem flushBuffer_small {st : EngineState} {k : String}
    {buf : PendingBuffer} (hlook : st.buffers.lookup k = some buf)
    (h : (jsTrim buf.totalText).length < MIN_COALESCED_CHARS) :
    flushBuffer st k = ({ st with buffers := mapDelete st.buffers k }, []) := by
  unfold flushBuffer
  rw [hlook]
  dsimp only
  rw [if_pos h]

theorem mem_trimChars_of_not_ws {c : Char} :
    ∀ {l : List Char}, c ∈ l → isWS c = false → c ∈ trimChars l := by
  intro l hmem hws
  unfold trimChars
  have step : ∀ (m : List Char), c ∈ m → c ∈ m.dropWhile isWS := by
    intro m hm
    have := List.takeWhile_append_dropWhile isWS m
    rw [← this] at hm
    rcases List.mem_append.mp hm with h | h
    · exact absurd (List.mem_takeWhile_imp h) (by simp [hws])
    · exact h
  have h1 : c ∈ (l.dropWhile isWS).reverse := by
    simpa using step l hmem
  simpa using step _ h1

theorem trimChars_eq_nil_of_all_ws {l : List Char}
    (h : ∀ c ∈ l, isWS c = true) : trimChars l = [] := by
  unfold trimChars
  have h1 : l.dropWhile isWS = [] := List.dropWhile_eq_nil_iff.mpr h
  simp [h1]

theorem exists_not_ws_of_trim_self {s : String} (ht : jsTrim s = s)
    (hne : s ≠ "") : ∃ c ∈ s.data, isWS c = false := by
  by_contra hall
  push_neg at hall
  have hall' : ∀ c ∈ s.data, isWS c = true := by
    intro c hc
    have := hall c hc
    simpa using this
  have : jsTrim s = "" := by
    unfold jsTrim
    rw [trimChars_eq_nil_of_all_ws hall']
  exact hne (by rw [← ht, this])

theorem jsTrim_length_ne_zero {s : String} {c : Char} (hc : c ∈ s.data)
    (hws : isWS c = false) : (jsTrim s).length ≠ 0 := by
  have hmem : c ∈ trimChars s.data := mem_trimChars_of_not_ws hc hws
  have : trimChars s.data ≠ [] := by
    intro hnil
    rw [hnil] at hmem
    simp at hmem
  simpa [jsTrim, List.length_eq_zero] using this

/-! ## Concrete fixtures -/

def cfgDefault : AnnotatorConfig :=
  { enabled := true, charsPerSecondThreshold := 10,
    minCharsForDetection := 8, envFileName := ".env" }

def clipIdle : ClipboardState := { pasteFlag := false, lastClipboard := "" }

def stIdle : EngineState :=
  { config := cfgDefault, clipboard := clipIdle,
    suppressedDocs := [], buffers := [] }

def docA : TextDocument :=
  { uriString := "file:///a.ts", scheme := "file", fileName := "/a.ts",
    languageId := "typescript", lines := ["const x = 1"], isClosed := false }

def chPlain : ChangeEvent :=
  { text := "hello world code", rangeLength := 0, startLine := 0 }

/-- A change that qualifies for instant detection: 3 lines, 37 chars. -/
def chInstant : ChangeEvent :=
  { text := "const a = 100;\nconst b = 200;\nconst c", rangeLength := 0,
    startLine := 0 }

/-! ## C1 -/

/-- C1: for every engine state whose suppression set holds the
document's identity, neither `processChange` nor `processFileChange`
hands any classification result to the detection callback. -/
theorem suppressedNeverClassified (st : EngineState) (doc : TextDocument)
    (ch : ChangeEvent) (now : Nat)
    (h : st.suppressedDocs.contains doc.uriString = true) :
    (processChange st doc ch now).2 = [] ∧
    (processFileChange st doc).2 = [] := by
  constructor
  · unfold processChange
    split
    next => rfl
    next =>
      split
      next => rfl
      next => rfl
  · unfold processFileChange
    split
    next => rfl
    next => rfl

def stSupp : EngineState := { stIdle with suppressedDocs := ["file:///a.ts"] }

theorem suppressedNeverClassified_instance :
    stSupp.suppressedDocs.contains docA.uriString = true ∧
    ((processChange stSupp docA chPlain 0).2 = [] ∧
     (processFileChange stSupp docA).2 = []) :=
  ⟨by decide, suppressedNeverClassified stSupp docA chPlain 0 (by decide)⟩

/-! ## C7 -/

def clipPaste : ClipboardState :=
  { pasteFlag := false, lastClipboard := "let y = 42;" }

def stPaste : EngineState := { stIdle with clipboard := clipPaste }

def chPaste : ChangeEvent :=
  { text := " let y = 42; ", rangeLength := 0, startLine := 0 }

/-- C7 counterexample: a change whose text equals the last clipboard
read after trimming, both above the length floor, so the clipboard
heuristic reports a paste — yet `processChange` emits no result at all,
in particular no result with classification `PASTED`. -/
theorem pasteNoPastedResult_cex :
    wasPasted stPaste.clipboard chPaste.text = true ∧
    (jsTrim chPaste.text = jsTrim stPaste.clipboard.lastClipboard) ∧
    stPaste.clipboard.lastClipboard.length > 3 ∧ chPaste.text.length > 3 ∧
    (processChange stPaste docA chPaste 0).2 = [] := by decide

/-- C7 (amended): when the clipboard heuristic reports a paste for a
change that reached that step of the reject chain, `processChange`
drops the change without emitting any result — so no `AI_LIKELY` (and
no result object of any classification, `PASTED` included) is produced
for it, and the engine state is left unchanged. -/
theorem pasteEmitsNothing (st : EngineState) (doc : TextDocument)
    (change : ChangeEvent) (now : Nat)
    (hpaste : wasPasted st.clipboard change.text = true) :
    processChange st doc change now = (st, []) := by
  unfold processChange
  simp [hpaste]

theorem pasteEmitsNothing_instance :
    wasPasted stPaste.clipboard chPaste.text = true ∧
    processChange stPaste docA chPaste 0 = (stPaste, []) :=
  ⟨by decide, pasteEmitsNothing stPaste docA chPaste 0 (by decide)⟩

/-! ## C8 -/

def cfgHighMin : AnnotatorConfig := { cfgDefault with minCharsForDetection := 100 }

def stHighMin : EngineState := { stIdle with config := cfgHighMin }

/-- C8 counterexample: with the minimum-characters threshold configured
to 100, a 3-line change of 37 chars has trimmed length below the
configured threshold, yet `processChange` emits an instant `AI_LIKELY`
result for it — the configured threshold is never consulted by
`processChange`. -/
theorem minCharsNotConsulted_cex :
    (jsTrim chInstant.text).length < stHighMin.config.minCharsForDetection ∧
    ((processChange stHighMin docA chInstant 0).2.map
      (fun r => r.classification)) = [InsertionClassification.AI_LIKELY] := by
  decide

/-- C8 (amended): `processChange` does not consult the configured
minimum-characters threshold; the floor it enforces is the hardcoded
coalescing minimum of 8 chars. For every change whose trimmed length is
below 8 and for which no buffer is pending under the document's buffer
key, the call emits nothing, and flushing the buffer that the event
alone fills (when the flush timer later fires) also emits nothing. -/
theorem smallChangeNoEmit (st : EngineState) (doc : TextDocument)
    (change : ChangeEvent) (now : Nat)
    (htrim : (jsTrim change.text).length < MIN_COALESCED_CHARS)
    (hbuf : st.buffers.lookup (getBufferKey doc) = none) :
    (processChange st doc change now).2 = [] ∧
    (flushBuffer (processChange st doc change now).1 (getBufferKey doc)).2
      = [] := by
  have hfl : flushBuffer st (getBufferKey doc) = (st, []) := by
    unfold flushBuffer
    rw [hbuf]
  have htrim' : (jsTrim change.text).length < 8 := by
    simpa [MIN_COALESCED_CHARS] using htrim
  have hdone : (st, ([] : List DetectionResult)).2 = [] ∧
      (flushBuffer (st, ([] : List DetectionResult)).1
        (getBufferKey doc)).2 = [] := by
    refine ⟨rfl, ?_⟩
    show (flushBuffer st (getBufferKey doc)).2 = []
    rw [hfl]
  unfold processChange
  split
  · exact hdone
  · split
    · exact hdone
    · split
      · exact hdone
      · split
        · exact hdone
        · split
          · exact hdone
          · split
            · exact hdone
            · split
              · exact hdone
              · split
                · rename_i hinst
                  simp only [Bool.and_eq_true, decide_eq_true_eq] at hinst
                  omega
                · show (coalesceStep st doc change now).2 = [] ∧
                    (flushBuffer (coalesceStep st doc change now).1
                      (getBufferKey doc)).2 = []
                  unfold coalesceStep
                  rw [hbuf, hfl]
                  refine ⟨rfl, ?_⟩
                  rw [flushBuffer_small
                    (lookup_mapSet_self _ _ (newBuf doc change now))
                    (by simpa [newBuf] using htrim')]

def chSmall : ChangeEvent := { text := "ab cd", rangeLength := 0, startLine := 0 }

theorem smallChangeNoEmit_instance :
    ((jsTrim chSmall.text).length < MIN_COALESCED_CHARS ∧
     stIdle.buffers.lookup (getBufferKey docA) = none) ∧
    ((processChange stIdle docA chSmall 7).2 = [] ∧
     (flushBuffer (processChange stIdle docA chSmall 7).1
       (getBufferKey docA)).2 = []) :=
  ⟨⟨by decide, by decide⟩,
    smallChangeNoEmit stIdle docA chSmall 7 (by decide) (by decide)⟩

/-! ## C3 -/

/-- A pending buffer that qualifies for emission on flush: two changes,
ten non-blank chars. -/
def bufPend : PendingBuffer :=
  { document := docA, totalText := "abcdefgh12", totalChars := 10,
    startLine := 0, endLine := 0, firstTime := 0, lastTime := 0,
    changeCount := 2 }

def stPend : EngineState :=
  { stIdle with buffers := [(getBufferKey docA, bufPend)] }

/-- C3 evaluation at the failing input: with a pending buffer for the
file (stored under the lowercased file-name key), an instant-qualifying
change makes `processChange` emit only the instant result; the pending
buffer is neither emitted nor discarded (it survives in the state),
because the flush call inside the instant path uses the document URI
string as key, which differs from the buffer key — even though flushing
the actual buffer key would have emitted the buffered content. -/
theorem instantFlushKeyMismatch_eval :
    (processChange stPend docA chInstant 5).2 =
      [mkResult docA chInstant.startLine chInstant.text "Instant"] ∧
    ((processChange stPend docA chInstant 5).1.buffers.lookup
      (getBufferKey docA)) = some bufPend ∧
    (flushBuffer stPend (getBufferKey docA)).2.length = 1 := by
  decide

/-! ## C5 -/

theorem wasPasted_idle {cs : ClipboardState} (hf : cs.pasteFlag = false)
    (hc : cs.lastClipboard = "") (t : String) : wasPasted cs t = false := by
  unfold wasPasted
  rw [hf, hc]
  simp

/-- Reject-chain lemma: a change that survives every reject heuristic
and is not instant-qualifying reaches the coalescing tail. -/
theorem processChange_to_coalesce (st : EngineState) (doc : TextDocument)
    (change : ChangeEvent) (now : Nat)
    (hen : st.config.enabled = true)
    (hsch : (doc.scheme == "output" || doc.scheme == "debug" ||
      doc.scheme == "git" || doc.scheme == "vscode" ||
      doc.scheme == "search-editor" ||
      containsSubstr doc.fileName "extension-output") = false)
    (hsup : st.suppressedDocs.contains doc.uriString = false)
    (hne : (change.text.length == 0) = false)
    (hmk : (containsSubstr change.text ANNOTATION_MARKER ||
      containsSubstr change.text ANNOTATION_END_MARKER) = false)
    (hsg : (change.text.length == 1 && change.rangeLength == 0) = false)
    (hpaste : wasPasted st.clipboard change.text = false)
    (hinst : ((jsTrim change.text).length ≥ 30 &&
      countLines change.text ≥ 3) = false) :
    processChange st doc change now = coalesceStep st doc change now := by
  unfold processChange
  rw [if_neg (by simp [hen]), if_neg (by simp [hsch]),
    if_neg (by rw [hsup]; exact Bool.false_ne_true),
    if_neg (by simp [hne]), if_neg (by simp [hmk]), if_neg (by simp [hsg]),
    if_neg (by simp [hpaste]), if_neg (by simp [hinst])]

theorem coalesceStep_fresh {st : EngineState} {doc : TextDocument}
    {change : ChangeEvent} {now : Nat}
    (hl : st.buffers.lookup (getBufferKey doc) = none) :
    coalesceStep st doc change now =
      ({ st with buffers := (mapSet st.buffers (getBufferKey doc)
        (newBuf doc change now)) }, []) := by
  unfold coalesceStep
  rw [hl]
  dsimp only
  rw [flushBuffer_lookup_none hl]

theorem coalesceStep_accum {st : EngineState} {doc : TextDocument}
    {change : ChangeEvent} {now : Nat} {buf : PendingBuffer}
    (hl : st.buffers.lookup (getBufferKey doc) = some buf)
    (ht : now - buf.lastTime < COALESCE_MS) :
    coalesceStep st doc change now =
      ({ st with buffers := (mapSet st.buffers (getBufferKey doc)
        (accumBuf buf change now)) }, []) := by
  unfold coalesceStep
  rw [hl]
  dsimp only
  rw [if_pos ht]

theorem flushBuffer_emit {st : EngineState} {k : String} {buf : PendingBuffer}
    (hl : st.buffers.lookup k = some buf)
    (hbig : ¬ (jsTrim buf.totalText).length < MIN_COALESCED_CHARS)
    (hni : (buf.changeCount == 1 && buf.totalChars < 40 &&
      countLines buf.totalText == 1) = false)
    (hqual : (buf.changeCount ≥ 2 || (jsTrim buf.totalText).length ≥ 20)
      = true) :
    flushBuffer st k =
      ({ st with buffers := mapDelete st.buffers k },
        [mkResult buf.document buf.startLine buf.totalText "Coalesced"]) := by
  unfold flushBuffer
  rw [hl]
  dsimp only
  rw [if_neg hbig, if_neg (by simp [hni]), if_pos hqual]

/-- C5: three changes of 4, 5 and 6 non-whitespace chars on the same
file, each 50 ms after the previous, are accumulated into one pending
buffer (change count 3, text the concatenation), no result is emitted
while buffering, and the flush-timer firing emits exactly one
`AI_LIKELY` result whose text is the 15-char concatenation. -/
theorem coalesceThreeChanges (st : EngineState) (doc : TextDocument)
    (ch1 ch2 ch3 : ChangeEvent) (t : Nat)
    (hen : st.config.enabled = true)
    (hsch : (doc.scheme == "output" || doc.scheme == "debug" ||
      doc.scheme == "git" || doc.scheme == "vscode" ||
      doc.scheme == "search-editor" ||
      containsSubstr doc.fileName "extension-output") = false)
    (hsup : st.suppressedDocs.contains doc.uriString = false)
    (hflag : st.clipboard.pasteFlag = false)
    (hclip : st.clipboard.lastClipboard = "")
    (hbuf : st.buffers.lookup (getBufferKey doc) = none)
    (h1 : ch1.text.length = 4) (h2 : ch2.text.length = 5)
    (h3 : ch3.text.length = 6)
    (hw1 : ∀ c ∈ ch1.text.data, isWS c = false)
    (hw2 : ∀ c ∈ ch2.text.data, isWS c = false)
    (hw3 : ∀ c ∈ ch3.text.data, isWS c = false) :
    (processChange st doc ch1 t).2 = [] ∧
    (processChange (processChange st doc ch1 t).1 doc ch2 (t + 50)).2 = [] ∧
    (processChange (processChange (processChange st doc ch1 t).1 doc ch2
      (t + 50)).1 doc ch3 (t + 100)).2 = [] ∧
    (∃ buf,
      (processChange (processChange (processChange st doc ch1 t).1 doc ch2
        (t + 50)).1 doc ch3 (t + 100)).1.buffers.lookup (getBufferKey doc) =
          some buf ∧
      buf.changeCount = 3 ∧
      buf.totalText = ch1.text ++ ch2.text ++ ch3.text) ∧
    (flushBuffer (processChange (processChange (processChange st doc ch1 t).1
      doc ch2 (t + 50)).1 doc ch3 (t + 100)).1 (getBufferKey doc)).2 =
      [mkResult doc ch1.startLine (ch1.text ++ ch2.text ++ ch3.text)
        "Coalesced"] ∧
    (ch1.text ++ ch2.text ++ ch3.text).length = 15 := by
  have hd1 : ch1.text.data.length = 4 := h1
  have hd2 : ch2.text.data.length = 5 := h2
  have hd3 : ch3.text.data.length = 6 := h3
  have hMlen : ANNOTATION_MARKER.data.length = 17 := by decide
  have hElen : ANNOTATION_END_MARKER.data.length = 15 := by decide
  have htr1 : jsTrim ch1.text = ch1.text := jsTrim_eq_self hw1
  have htr2 : jsTrim ch2.text = ch2.text := jsTrim_eq_self hw2
  have htr3 : jsTrim ch3.text = ch3.text := jsTrim_eq_self hw3
  have hmk1 : (containsSubstr ch1.text ANNOTATION_MARKER ||
      containsSubstr ch1.text ANNOTATION_END_MARKER) = false := by
    rw [containsSubstr_eq_false_of_lt (by omega),
      containsSubstr_eq_false_of_lt (by omega)]
    rfl
  have hmk2 : (containsSubstr ch2.text ANNOTATION_MARKER ||
      containsSubstr ch2.text ANNOTATION_END_MARKER) = false := by
    rw [containsSubstr_eq_false_of_lt (by omega),
      containsSubstr_eq_false_of_lt (by omega)]
    rfl
  have hmk3 : (containsSubstr ch3.text ANNOTATION_MARKER ||
      containsSubstr ch3.text ANNOTATION_END_MARKER) = false := by
    rw [containsSubstr_eq_false_of_lt (by omega),
      containsSubstr_eq_false_of_lt (by omega)]
    rfl
  have hp1 : processChange st doc ch1 t =
      ({ st with buffers := (mapSet st.buffers (getBufferKey doc)
        (newBuf doc ch1 t)) }, []) := by
    rw [processChange_to_coalesce st doc ch1 t hen hsch hsup
      (by simp [h1]) hmk1 (by simp [h1])
      (wasPasted_idle hflag hclip ch1.text)
      (by simp [htr1, h1])]
    exact coalesceStep_fresh hbuf
  have hl1 : ({ st with buffers := (mapSet st.buffers (getBufferKey doc)
      (newBuf doc ch1 t)) } : EngineState).buffers.lookup (getBufferKey doc)
      = some (newBuf doc ch1 t) :=
    lookup_mapSet_self st.buffers (getBufferKey doc) (newBuf doc ch1 t)
  have hp2 : processChange ({ st with buffers := (mapSet st.buffers
      (getBufferKey doc) (newBuf doc ch1 t)) }) doc ch2 (t + 50) =
      ({ st with buffers := (mapSet (mapSet st.buffers (getBufferKey doc)
        (newBuf doc ch1 t)) (getBufferKey doc)
        (accumBuf (newBuf doc ch1 t) ch2 (t + 50))) }, []) := by
    rw [processChange_to_coalesce ({ st with buffers := (mapSet st.buffers
      (getBufferKey doc) (newBuf doc ch1 t)) }) doc ch2 (t + 50) hen hsch hsup
      (by simp [h2]) hmk2 (by simp [h2])
      (wasPasted_idle hflag hclip ch2.text)
      (by simp [htr2, h2])]
    rw [coalesceStep_accum hl1 (by show t + 50 - t < 350; omega)]
  have hl2 : ({ st with buffers := (mapSet (mapSet st.buffers
      (getBufferKey doc) (newBuf doc ch1 t)) (getBufferKey doc)
      (accumBuf (newBuf doc ch1 t) ch2 (t + 50))) } :
      EngineState).buffers.lookup (getBufferKey doc) =
      some (accumBuf (newBuf doc ch1 t) ch2 (t + 50)) :=
    lookup_mapSet_self _ _ _
  have hp3 : processChange ({ st with buffers := (mapSet (mapSet st.buffers
      (getBufferKey doc) (newBuf doc ch1 t)) (getBufferKey doc)
      (accumBuf (newBuf doc ch1 t) ch2 (t + 50))) }) doc ch3 (t + 100) =
      ({ st with buffers := (mapSet (mapSet (mapSet st.buffers
        (getBufferKey doc) (newBuf doc ch1 t)) (getBufferKey doc)
        (accumBuf (newBuf doc ch1 t) ch2 (t + 50))) (getBufferKey doc)
        (accumBuf (accumBuf (newBuf doc ch1 t) ch2 (t + 50)) ch3
          (t + 100))) }, []) := by
    rw [processChange_to_coalesce ({ st with buffers := (mapSet (mapSet
      st.buffers (getBufferKey doc) (newBuf doc ch1 t)) (getBufferKey doc)
      (accumBuf (newBuf doc ch1 t) ch2 (t + 50))) }) doc ch3 (t + 100)
      hen hsch hsup
      (by simp [h3]) hmk3 (by simp [h3])
      (wasPasted_idle hflag hclip ch3.text)
      (by simp [htr3, h3])]
    rw [coalesceStep_accum hl2
      (by show t + 100 - (t + 50) < 350; omega)]
  have hwAll : ∀ c ∈ (ch1.text ++ ch2.text ++ ch3.text).data,
      isWS c = false := by
    intro c hc
    rw [String.data_append, String.data_append] at hc
    rcases List.mem_append.mp hc with hc' | hc3
    · rcases List.mem_append.mp hc' with hc1 | hc2
      · exact hw1 c hc1
      · exact hw2 c hc2
    · exact hw3 c hc3
  have htrAll : jsTrim (ch1.text ++ ch2.text ++ ch3.text) =
      ch1.text ++ ch2.text ++ ch3.text := jsTrim_eq_self hwAll
  have hlenAll : (ch1.text ++ ch2.text ++ ch3.text).length = 15 := by
    show (ch1.text ++ ch2.text ++ ch3.text).data.length = 15
    rw [String.data_append, String.data_append, List.length_append,
      List.length_append]
    omega
  have hl3 : ({ st with buffers := (mapSet (mapSet (mapSet st.buffers
      (getBufferKey doc) (newBuf doc ch1 t)) (getBufferKey doc)
      (accumBuf (newBuf doc ch1 t) ch2 (t + 50))) (getBufferKey doc)
      (accumBuf (accumBuf (newBuf doc ch1 t) ch2 (t + 50)) ch3
        (t + 100))) } : EngineState).buffers.lookup (getBufferKey doc) =
      some (accumBuf (accumBuf (newBuf doc ch1 t) ch2 (t + 50)) ch3
        (t + 100)) :=
    lookup_mapSet_self _ _ _
  have hflush : (flushBuffer ({ st with buffers := (mapSet (mapSet (mapSet
      st.buffers (getBufferKey doc) (newBuf doc ch1 t)) (getBufferKey doc)
      (accumBuf (newBuf doc ch1 t) ch2 (t + 50))) (getBufferKey doc)
      (accumBuf (accumBuf (newBuf doc ch1 t) ch2 (t + 50)) ch3
        (t + 100))) }) (getBufferKey doc)).2 =
      [mkResult doc ch1.startLine (ch1.text ++ ch2.text ++ ch3.text)
        "Coalesced"] := by
    rw [flushBuffer_emit hl3 ?hbig ?hni ?hqual]
    rfl
    case hbig =>
      show ¬ (jsTrim (ch1.text ++ ch2.text ++ ch3.text)).length <
        MIN_COALESCED_CHARS
      rw [htrAll, hlenAll]
      decide
    case hni => simp [accumBuf, newBuf]
    case hqual => simp [accumBuf, newBuf]
  rw [hp1]
  dsimp only
  rw [hp2]
  dsimp only
  rw [hp3]
  dsimp only
  exact ⟨rfl, rfl, rfl,
    ⟨accumBuf (accumBuf (newBuf doc ch1 t) ch2 (t + 50)) ch3 (t + 100),
      hl3, rfl, rfl⟩, hflush, hlenAll⟩

def ch5a : ChangeEvent := { text := "abcd", rangeLength := 0, startLine := 2 }

def ch5b : ChangeEvent := { text := "efghi", rangeLength := 0, startLine := 2 }

def ch5c : ChangeEvent := { text := "jklmno", rangeLength := 0, startLine := 3 }

theorem coalesceThreeChanges_instance :
    (stIdle.buffers.lookup (getBufferKey docA) = none ∧
      ch5a.text.length = 4 ∧ ch5b.text.length = 5 ∧ ch5c.text.length = 6) ∧
    ((processChange stIdle docA ch5a 1000).2 = [] ∧
     (processChange (processChange stIdle docA ch5a 1000).1 docA ch5b
       (1000 + 50)).2 = [] ∧
     (processChange (processChange (processChange stIdle docA ch5a 1000).1
       docA ch5b (1000 + 50)).1 docA ch5c (1000 + 100)).2 = [] ∧
     (∃ buf,
       (processChange (processChange (processChange stIdle docA ch5a 1000).1
         docA ch5b (1000 + 50)).1 docA ch5c (1000 + 100)).1.buffers.lookup
           (getBufferKey docA) = some buf ∧
       buf.changeCount = 3 ∧
       buf.totalText = ch5a.text ++ ch5b.text ++ ch5c.text) ∧
     (flushBuffer (processChange (processChange (processChange stIdle docA
       ch5a 1000).1 docA ch5b (1000 + 50)).1 docA ch5c (1000 + 100)).1
       (getBufferKey docA)).2 =
       [mkResult docA ch5a.startLine (ch5a.text ++ ch5b.text ++ ch5c.text)
         "Coalesced"] ∧
     (ch5a.text ++ ch5b.text ++ ch5c.text).length = 15) :=
  ⟨⟨by decide, by decide, by decide, by decide⟩,
    coalesceThreeChanges stIdle docA ch5a ch5b ch5c 1000 (by decide)
      (by decide) (by decide) (by decide) (by decide) (by decide) (by decide)
      (by decide) (by decide) (by decide) (by decide) (by decide)⟩

/-! ## C2 / C9: no-edit paths of the annotation writer -/

theorem annotate_no_edit {w : WriterState} {r : DetectionResult}
    {doc : TextDocument} {key : String} {now : Nat}
    (hres : resolveRealFile r.document = some key)
    (hann : (resolvedRange w doc r key).2 ≤ (resolvedRange w doc r key).1 ∨
      isRangeAnnotated doc.lines (resolvedRange w doc r key).1
        (resolvedRange w doc r key).2 = true) :
    (annotate w r doc now).2.1 = doc.lines ∧
    (annotate w r doc now).2.2 = false := by
  unfold annotate
  rw [hres]
  dsimp only
  split
  · exact ⟨rfl, rfl⟩
  · unfold doAnnotate
    split
    · exact ⟨rfl, rfl⟩
    · split
      · exact ⟨rfl, rfl⟩
      · split
        · exact ⟨rfl, rfl⟩
        · rename_i hrange hmarked
          rcases hann with h | h
          · exact absurd h hrange
          · exact absurd h hmarked

theorem isRangeAnnotated_of_block {lines : List String} {s e : Nat}
    (h : ∃ blk ∈ findBlocks lines, blk.1 ≤ s ∧ e ≤ blk.2 + 1) :
    isRangeAnnotated lines s e = true := by
  unfold isRangeAnnotated
  rcases h with ⟨blk, hmem, h1, h2⟩
  have hany : ((findBlocks lines).any fun b =>
      decide (b.1 ≤ s) && decide (e ≤ b.2 + 1)) = true :=
    List.any_eq_true.mpr ⟨blk, hmem, by simp [h1, h2]⟩
  rw [hany]
  rfl

/-- C2: when the resolved range lies entirely inside an existing
start/end marker block of the document, `annotate` performs no edit:
the document text is unchanged. -/
theorem annotatedRangeNoEdit (w : WriterState) (r : DetectionResult)
    (doc : TextDocument) (key : String) (now : Nat)
    (hres : resolveRealFile r.document = some key)
    (hblk : ∃ blk ∈ findBlocks doc.lines,
      blk.1 ≤ (resolvedRange w doc r key).1 ∧
      (resolvedRange w doc r key).2 ≤ blk.2 + 1) :
    (annotate w r doc now).2.1 = doc.lines :=
  (annotate_no_edit hres (Or.inr (isRangeAnnotated_of_block hblk))).1

def w0 : WriterState :=
  { employeeId := "E1", cooldowns := [], snapshots := [],
    suppressedDocs := [] }

def docAnn : TextDocument :=
  { uriString := "file:///a.ts", scheme := "file", fileName := "/a.ts",
    languageId := "typescript",
    lines := ["// AI_ASSISTED: true", "const q = 5", "// AI_ASSISTED_END"],
    isClosed := false }

def rAnn : DetectionResult := mkResult docAnn 0 "const q = 5" "Instant"

theorem annotatedRangeNoEdit_instance :
    (resolveRealFile rAnn.document = some "file:///a.ts" ∧
     ∃ blk ∈ findBlocks docAnn.lines,
       blk.1 ≤ (resolvedRange w0 docAnn rAnn "file:///a.ts").1 ∧
       (resolvedRange w0 docAnn rAnn "file:///a.ts").2 ≤ blk.2 + 1) ∧
    (annotate w0 rAnn docAnn 5000).2.1 = docAnn.lines :=
  ⟨⟨by decide, by decide⟩,
    annotatedRangeNoEdit w0 rAnn docAnn "file:///a.ts" 5000 (by decide)
      (by decide)⟩

theorem isRangeAnnotated_of_nearby {lines : List String} {s e : Nat}
    (h : ∃ i, s - 4 ≤ i ∧ i ≤ s ∧ i < lines.length ∧
      containsSubstr (lines.getD i "") ANNOTATION_MARKER = true) :
    isRangeAnnotated lines s e = true := by
  unfold isRangeAnnotated
  rcases h with ⟨i, h1, h2, h3, h4⟩
  have hlb : i ≤ min (lines.length - 1) s := by
    have hx : i ≤ lines.length - 1 := by omega
    exact le_min hx h2
  have hmem : i ∈ List.range' (s - 4)
      (min (lines.length - 1) s + 1 - (s - 4)) := by
    rw [List.mem_range'_1]
    exact ⟨h1, by omega⟩
  have hany : ((List.range' (s - 4)
      (min (lines.length - 1) s + 1 - (s - 4))).any fun j =>
      containsSubstr (lines.getD j "") ANNOTATION_MARKER) = true :=
    List.any_eq_true.mpr ⟨i, hmem, h4⟩
  rw [hany]
  simp

/-- C9 (implicit): `isRangeAnnotated` returns true whenever some line
within four lines at or above the resolved start line contains the
start-marker literal, even outside any complete block — and therefore
`annotate` leaves the document text unchanged for such a range. -/
theorem nearbyMarkerBlocksWrite (w : WriterState) (r : DetectionResult)
    (doc : TextDocument) (key : String) (now : Nat)
    (hres : resolveRealFile r.document = some key)
    (hnear : ∃ i, (resolvedRange w doc r key).1 - 4 ≤ i ∧
      i ≤ (resolvedRange w doc r key).1 ∧ i < doc.lines.length ∧
      containsSubstr (doc.lines.getD i "") ANNOTATION_MARKER = true) :
    isRangeAnnotated doc.lines (resolvedRange w doc r key).1
      (resolvedRange w doc r key).2 = true ∧
    (annotate w r doc now).2.1 = doc.lines :=
  ⟨isRangeAnnotated_of_nearby hnear,
    (annotate_no_edit hres (Or.inr (isRangeAnnotated_of_nearby hnear))).1⟩

def docNear : TextDocument :=
  { uriString := "file:///b.ts", scheme := "file", fileName := "/b.ts",
    languageId := "typescript",
    lines := ["// AI_ASSISTED: true", "alpha beta", "gamma delta"],
    isClosed := false }

def rNear : DetectionResult := mkResult docNear 0 "alpha beta" "Instant"

theorem nearbyMarkerBlocksWrite_instance :
    (resolveRealFile rNear.document = some "file:///b.ts" ∧
     (∃ i, (resolvedRange w0 docNear rNear "file:///b.ts").1 - 4 ≤ i ∧
       i ≤ (resolvedRange w0 docNear rNear "file:///b.ts").1 ∧
       i < docNear.lines.length ∧
       containsSubstr (docNear.lines.getD i "") ANNOTATION_MARKER = true) ∧
     findBlocks docNear.lines = []) ∧
    (isRangeAnnotated docNear.lines
      (resolvedRange w0 docNear rNear "file:///b.ts").1
      (resolvedRange w0 docNear rNear "file:///b.ts").2 = true ∧
     (annotate w0 rNear docNear 5000).2.1 = docNear.lines) :=
  ⟨⟨by decide, ⟨0, by decide, by decide, by decide, by decide⟩, by decide⟩,
    nearbyMarkerBlocksWrite w0 rNear docNear "file:///b.ts" 5000 (by decide)
      ⟨0, by decide, by decide, by decide, by decide⟩⟩

/-! ## C6: cooldown -/

theorem annotate_cooldown_skip {w : WriterState} {r : DetectionResult}
    {d : TextDocument} {key : String} {now : Nat}
    (hres : resolveRealFile r.document = some key)
    (hcool : now - (w.cooldowns.lookup key).getD 0 < COOLDOWN_MS) :
    annotate w r d now = (w, d.lines, false) := by
  unfold annotate
  rw [hres]
  dsimp only
  rw [if_pos hcool]

theorem annotate_wrote_cooldown {w : WriterState} {r : DetectionResult}
    {d : TextDocument} {key : String} {now : Nat}
    (hres : resolveRealFile r.document = some key)
    (hw : (annotate w r d now).2.2 = true) :
    (annotate w r d now).1.cooldowns.lookup key = some now := by
  revert hw
  unfold annotate
  rw [hres]
  dsimp only
  split
  · intro hw
    exact absurd hw (by simp)
  · unfold doAnnotate
    split
    · intro hw
      exact absurd hw (by simp)
    · split
      · intro hw
        exact absurd hw (by simp)
      · split
        · intro hw
          exact absurd hw (by simp)
        · intro _
          exact lookup_mapSet_self w.cooldowns key now

/-- C6: two annotate calls for the same resolved file within the 2000 ms
cooldown window perform at most one successful write — if the first call
wrote, the second is dropped with the document unchanged. -/
theorem cooldownSingleWrite (w : WriterState) (r1 r2 : DetectionResult)
    (d1 d2 : TextDocument) (key : String) (t1 t2 : Nat)
    (hk1 : resolveRealFile r1.document = some key)
    (hk2 : resolveRealFile r2.document = some key)
    (hle : t1 ≤ t2) (hwin : t2 - t1 < 2000)
    (hw1 : (annotate w r1 d1 t1).2.2 = true) :
    (annotate (annotate w r1 d1 t1).1 r2 d2 t2).2.2 = false ∧
    (annotate (annotate w r1 d1 t1).1 r2 d2 t2).2.1 = d2.lines := by
  have hcd := annotate_wrote_cooldown hk1 hw1
  rw [annotate_cooldown_skip hk2 (by rw [hcd]; show t2 - t1 < 2000; omega)]
  exact ⟨rfl, rfl⟩

def docB : TextDocument :=
  { uriString := "file:///c.ts", scheme := "file", fileName := "/c.ts",
    languageId := "typescript", lines := ["const value = 12345"],
    isClosed := false }

def rB1 : DetectionResult := mkResult docB 0 "const value = 12345" "Instant"

def rB2 : DetectionResult := mkResult docB 0 "const value = 12345" "Instant"

theorem cooldownSingleWrite_instance :
    (resolveRealFile rB1.document = some "file:///c.ts" ∧
     resolveRealFile rB2.document = some "file:///c.ts" ∧
     (5000 : Nat) ≤ 6000 ∧ (6000 : Nat) - 5000 < 2000 ∧
     (annotate w0 rB1 docB 5000).2.2 = true) ∧
    ((annotate (annotate w0 rB1 docB 5000).1 rB2 docB 6000).2.2 = false ∧
     (annotate (annotate w0 rB1 docB 5000).1 rB2 docB 6000).2.1 =
       docB.lines) :=
  ⟨⟨by decide, by decide, by decide, by decide, by decide⟩,
    cooldownSingleWrite w0 rB1 rB2 docB docB "file:///c.ts" 5000 6000
      (by decide) (by decide) (by decide) (by decide) (by decide)⟩

/-! ## C10: shape of the resolved range -/

theorem findNewLoop_shape (olds : List String) (cur : List String) :
    ∀ (i : Nat) (used : List String) (f l : Option Nat),
    ((f = none ∧ l = none) ∨
      (∃ a b, f = some a ∧ l = some b ∧ a ≤ b ∧ b < i)) →
    ((findNewLoop olds cur i used f l).1 = none ∧
     (findNewLoop olds cur i used f l).2 = none) ∨
    (∃ a b, (findNewLoop olds cur i used f l).1 = some a ∧
      (findNewLoop olds cur i used f l).2 = some b ∧ a ≤ b) := by
  induction cur with
  | nil =>
    intro i used f l hinv
    rcases hinv with ⟨hf, hl⟩ | ⟨a, b, hf, hl, hab, _⟩
    · exact Or.inl ⟨by simp [findNewLoop, hf], by simp [findNewLoop, hl]⟩
    · exact Or.inr ⟨a, b, by simp [findNewLoop, hf],
        by simp [findNewLoop, hl], hab⟩
  | cons x rest ih =>
    intro i used f l hinv
    have hinv' : (f = none ∧ l = none) ∨
        (∃ a b, f = some a ∧ l = some b ∧ a ≤ b ∧ b < i + 1) := by
      rcases hinv with h | ⟨a, b, hf, hl, hab, hbi⟩
      · exact Or.inl h
      · exact Or.inr ⟨a, b, hf, hl, hab, by omega⟩
    simp only [findNewLoop]
    split
    · exact ih (i + 1) used f l hinv'
    · split
      · exact ih (i + 1) used f l hinv'
      · split
        · exact ih (i + 1) (jsTrim x :: used) f l hinv'
        · apply ih (i + 1) used _ (some i)
          rcases hinv with ⟨hf, hl⟩ | ⟨a, b, hf, hl, hab, hbi⟩
          · exact Or.inr ⟨i, i, by simp [hf], rfl, le_refl i, by omega⟩
          · exact Or.inr ⟨a, i, by simp [hf], rfl, by omega, by omega⟩

theorem scanBack_ge {cur : List String} {s : Nat} {lastL : String} {i : Nat}
    (h : scanBack cur s lastL = some i) : s ≤ i := by
  unfold scanBack at h
  have hmem := List.mem_of_find?_eq_some h
  rw [List.mem_filter] at hmem
  simpa using hmem.2

theorem findByInsertedText_shape (cur : List String) (ins : String) :
    findByInsertedText cur ins = (0, 0) ∨
    (findByInsertedText cur ins).1 < (findByInsertedText cur ins).2 := by
  unfold findByInsertedText
  split
  · exact Or.inl rfl
  · rename_i hne
    split
    · exact Or.inl rfl
    · rename_i startLine hfind
      split
      · rename_i i hscan
        right
        have hsi := scanBack_ge hscan
        show startLine < i + 1
        omega
      · right
        have hlen : (insLines ins).length ≠ 0 := by simpa using hne
        show startLine < startLine + (insLines ins).length
        omega

/-- C10 (implicit): the resolved range always satisfies
`startLine ≤ endLine`; it is empty exactly when the snapshot is
non-blank, the multiset diff finds no new line, and the inserted-text
fallback locates nothing; and in the fallback path the returned
`endLine` can exceed the document's line count. -/
theorem rangeShapeSound (docLines : List String)
    (oldText insertedText : String) (hne : docLines ≠ []) :
    ((findNewCodeRange docLines oldText insertedText).1 ≤
      (findNewCodeRange docLines oldText insertedText).2 ∧
     ((findNewCodeRange docLines oldText insertedText).1 =
       (findNewCodeRange docLines oldText insertedText).2 ↔
       ((jsTrim oldText).length ≠ 0 ∧
        (findNewLoop (oldTrimmedLines oldText) docLines 0 [] none none).1 =
          none ∧
        findByInsertedText docLines insertedText = (0, 0)))) ∧
    (∃ dl old ins, ((findNewCodeRange dl old ins).2 >
      (dl : List String).length)) := by
  refine ⟨?_, ⟨["a"], "a", "a\nb\nc", by decide⟩⟩
  unfold findNewCodeRange
  split
  · rename_i hbl
    refine ⟨by simp, ?_, ?_⟩
    · intro h0
      have : docLines.length = 0 := by simpa using h0.symm
      exact absurd (List.length_eq_zero.mp this) hne
    · rintro ⟨hne0, _, _⟩
      exact absurd (by simpa using hbl) hne0
  · rename_i hnbl
    split
    · rename_i snd heq
      rcases findByInsertedText_shape docLines insertedText with hfb | hfb
      · refine ⟨by rw [hfb], ?_, ?_⟩
        · intro _
          refine ⟨by simpa using hnbl, by rw [heq], hfb⟩
        · intro _
          rw [hfb]
      · refine ⟨by omega, ?_, ?_⟩
        · intro h00
          omega
        · rintro ⟨_, _, h00⟩
          rw [h00] at hfb
          exact absurd hfb (by omega)
    · rename_i f lastNew heq
      rcases findNewLoop_shape (oldTrimmedLines oldText) docLines 0 [] none
          none (Or.inl ⟨rfl, rfl⟩) with ⟨hf, _⟩ | ⟨a, b, ha, hb, hab⟩
      · rw [heq] at hf
        exact absurd hf (by simp)
      · rw [heq] at ha hb
        have haf : f = a := by simpa using ha
        have hlb : lastNew = some b := by simpa using hb
        subst haf
        rw [hlb]
        dsimp only
        refine ⟨by omega, ?_, ?_⟩
        · intro hcontra
          omega
        · rintro ⟨_, hnone, _⟩
          rw [heq] at hnone
          exact absurd hnone (by simp)

theorem rangeShapeSound_instance :
    (["x"] : List String) ≠ [] ∧
    (((findNewCodeRange ["x"] "y" "z").1 ≤
        (findNewCodeRange ["x"] "y" "z").2 ∧
      ((findNewCodeRange ["x"] "y" "z").1 =
        (findNewCodeRange ["x"] "y" "z").2 ↔
        ((jsTrim "y").length ≠ 0 ∧
         (findNewLoop (oldTrimmedLines "y") ["x"] 0 [] none none).1 = none ∧
         findByInsertedText ["x"] "z" = (0, 0)))) ∧
     (∃ dl old ins, ((findNewCodeRange dl old ins).2 >
       (dl : List String).length))) :=
  ⟨by decide, rangeShapeSound ["x"] "y" "z" (by decide)⟩

/-! ## C4: the diff locates exactly the inserted span -/

theorem strLength_ne_zero {s : String} (h : s ≠ "") : s.length ≠ 0 := by
  intro h0
  apply h
  have hdata : s.data = [] := List.length_eq_zero.mp h0
  cases s with
  | mk d =>
    simp only at hdata
    rw [hdata]

theorem findNewLoop_step (olds rest : List String) (i : Nat)
    (used : List String) (f l : Option Nat) (x : String) :
    findNewLoop olds (x :: rest) i used f l =
      (if (jsTrim x).length == 0 then
        findNewLoop olds rest (i + 1) used f l
      else if containsSubstr (jsTrim x) ANNOTATION_MARKER ||
          containsSubstr (jsTrim x) ANNOTATION_END_MARKER then
        findNewLoop olds rest (i + 1) used f l
      else if used.count (jsTrim x) < olds.count (jsTrim x) then
        findNewLoop olds rest (i + 1) (jsTrim x :: used) f l
      else
        findNewLoop olds rest (i + 1) used
          (if f.isNone then some i else f) (some i)) := rfl

theorem findNewLoop_consume {olds rest : List String} {i : Nat}
    {used : List String} {f l : Option Nat} {x : String}
    (h0 : (jsTrim x).length ≠ 0)
    (hm : containsSubstr (jsTrim x) ANNOTATION_MARKER = false)
    (hm2 : containsSubstr (jsTrim x) ANNOTATION_END_MARKER = false)
    (hcnt : used.count (jsTrim x) < olds.count (jsTrim x)) :
    findNewLoop olds (x :: rest) i used f l =
      findNewLoop olds rest (i + 1) (jsTrim x :: used) f l := by
  rw [findNewLoop_step, if_neg (by simpa using h0),
    if_neg (by simp [hm, hm2]), if_pos hcnt]

theorem findNewLoop_newline {olds rest : List String} {i : Nat}
    {used : List String} {f l : Option Nat} {x : String}
    (h0 : (jsTrim x).length ≠ 0)
    (hm : containsSubstr (jsTrim x) ANNOTATION_MARKER = false)
    (hm2 : containsSubstr (jsTrim x) ANNOTATION_END_MARKER = false)
    (hcnt : ¬ used.count (jsTrim x) < olds.count (jsTrim x)) :
    findNewLoop olds (x :: rest) i used f l =
      findNewLoop olds rest (i + 1) used
        (if f.isNone then some i else f) (some i) := by
  rw [findNewLoop_step, if_neg (by simpa using h0),
    if_neg (by simp [hm, hm2]), if_neg hcnt]

theorem splitLinesAux_break (l₂ : List Char) :
    ∀ (l₁ acc : List Char), '\n' ∉ l₁ →
    splitLinesAux (l₁ ++ '\n' :: l₂) acc =
      String.mk (acc.reverse ++ l₁) :: splitLinesAux l₂ [] := by
  intro l₁
  induction l₁ with
  | nil =>
    intro acc _
    simp [splitLinesAux]
  | cons ch cs ih =>
    intro acc hmem
    have hc : ¬ ch = '\n' := by
      intro h
      exact hmem (by simp [h])
    rw [List.cons_append]
    show splitLinesAux (ch :: (cs ++ '\n' :: l₂)) acc = _
    rw [show splitLinesAux (ch :: (cs ++ '\n' :: l₂)) acc =
      (if ch = '\n' then String.mk acc.reverse ::
        splitLinesAux (cs ++ '\n' :: l₂) []
      else splitLinesAux (cs ++ '\n' :: l₂) (ch :: acc)) from rfl]
    rw [if_neg hc]
    rw [ih (ch :: acc) (by intro h; exact hmem (by simp [h]))]
    simp

theorem jsTrim_empty : jsTrim "" = "" := rfl

theorem splitLines_three (a b c : String)
    (hna : '\n' ∉ a.data) (hnb : '\n' ∉ b.data) (hnc : '\n' ∉ c.data) :
    splitLines (a ++ "\n" ++ b ++ "\n" ++ c ++ "\n") = [a, b, c, ""] := by
  unfold splitLines
  have hdata : (a ++ "\n" ++ b ++ "\n" ++ c ++ "\n").data =
      a.data ++ '\n' :: (b.data ++ '\n' :: (c.data ++ '\n' :: [])) := by
    simp [String.data_append]
  rw [hdata]
  rw [splitLinesAux_break _ _ _ hna]
  rw [splitLinesAux_break _ _ _ hnb]
  rw [splitLinesAux_break _ _ _ hnc]
  simp [splitLinesAux, strMk_data]

theorem oldTrimmed_three (a b c : String)
    (hna : '\n' ∉ a.data) (hnb : '\n' ∉ b.data) (hnc : '\n' ∉ c.data)
    (ha : jsTrim a = a) (hb : jsTrim b = b) (hc : jsTrim c = c)
    (ha0 : a ≠ "") (hb0 : b ≠ "") (hc0 : c ≠ "") :
    oldTrimmedLines (a ++ "\n" ++ b ++ "\n" ++ c ++ "\n") = [a, b, c] := by
  unfold oldTrimmedLines
  rw [splitLines_three a b c hna hnb hnc]
  have hla : (a.length == 0) = false := by
    simpa using strLength_ne_zero ha0
  have hlb : (b.length == 0) = false := by
    simpa using strLength_ne_zero hb0
  have hlc : (c.length == 0) = false := by
    simpa using strLength_ne_zero hc0
  simp [ha, hb, hc, jsTrim_empty, List.filter, hla, hlb, hlc]

/-- C4: for a snapshot whose trimmed, non-empty (and marker-free,
newline-free) lines are `a`, `b`, `c` and a current document with lines
`a`, `b`, `X`, `Y`, `c` where the new lines `X`, `Y` are non-blank,
marker-free and do not occur in the snapshot, `findNewCodeRange`
returns exactly the end-exclusive span `(2, 4)` covering `X` and `Y`. -/
theorem diffLocatesInsertedSpan (a b c X Y ins : String)
    (ha : jsTrim a = a) (hb : jsTrim b = b) (hc : jsTrim c = c)
    (ha0 : a ≠ "") (hb0 : b ≠ "") (hc0 : c ≠ "")
    (hna : '\n' ∉ a.data) (hnb : '\n' ∉ b.data) (hnc : '\n' ∉ c.data)
    (haM : containsSubstr a ANNOTATION_MARKER = false)
    (haE : containsSubstr a ANNOTATION_END_MARKER = false)
    (hbM : containsSubstr b ANNOTATION_MARKER = false)
    (hbE : containsSubstr b ANNOTATION_END_MARKER = false)
    (hcM : containsSubstr c ANNOTATION_MARKER = false)
    (hcE : containsSubstr c ANNOTATION_END_MARKER = false)
    (hX0 : (jsTrim X).length ≠ 0) (hY0 : (jsTrim Y).length ≠ 0)
    (hXM : containsSubstr (jsTrim X) ANNOTATION_MARKER = false)
    (hXE : containsSubstr (jsTrim X) ANNOTATION_END_MARKER = false)
    (hYM : containsSubstr (jsTrim Y) ANNOTATION_MARKER = false)
    (hYE : containsSubstr (jsTrim Y) ANNOTATION_END_MARKER = false)
    (hXa : jsTrim X ≠ a) (hXb : jsTrim X ≠ b) (hXc : jsTrim X ≠ c)
    (hYa : jsTrim Y ≠ a) (hYb : jsTrim Y ≠ b) (hYc : jsTrim Y ≠ c) :
    findNewCodeRange [a, b, X, Y, c]
      (a ++ "\n" ++ b ++ "\n" ++ c ++ "\n") ins = (2, 4) := by
  have hblank : ((jsTrim (a ++ "\n" ++ b ++ "\n" ++ c ++ "\n")).length == 0)
      = false := by
    obtain ⟨ca, hmem, hws⟩ := exists_not_ws_of_trim_self ha ha0
    have hmem' : ca ∈ (a ++ "\n" ++ b ++ "\n" ++ c ++ "\n").data := by
      simp [String.data_append, hmem]
    simpa using jsTrim_length_ne_zero hmem' hws
  unfold findNewCodeRange
  rw [if_neg (by simp [hblank])]
  rw [oldTrimmed_three a b c hna hnb hnc ha hb hc ha0 hb0 hc0]
  rw [findNewLoop_consume (x := a)
    (by rw [ha]; exact strLength_ne_zero ha0)
    (by rw [ha]; exact haM) (by rw [ha]; exact haE)
    (by rw [ha]
        rw [show ([a, b, c] : List String) = a :: [b, c] from rfl,
          List.count_cons_self]
        simp)]
  rw [ha]
  rw [findNewLoop_consume (x := b)
    (by rw [hb]; exact strLength_ne_zero hb0)
    (by rw [hb]; exact hbM) (by rw [hb]; exact hbE)
    (by rw [hb]
        rw [show ([a, b, c] : List String) = [a] ++ b :: [c] from rfl,
          List.count_append, List.count_cons_self]
        omega)]
  rw [hb]
  rw [findNewLoop_newline (x := X) hX0 hXM hXE
    (by have hz : List.count (jsTrim X) [a, b, c] = 0 :=
          List.count_eq_zero.mpr (by simp [hXa, hXb, hXc])
        omega)]
  rw [findNewLoop_newline (x := Y) hY0 hYM hYE
    (by have hz : List.count (jsTrim Y) [a, b, c] = 0 :=
          List.count_eq_zero.mpr (by simp [hYa, hYb, hYc])
        omega)]
  rw [findNewLoop_consume (x := c)
    (by rw [hc]; exact strLength_ne_zero hc0)
    (by rw [hc]; exact hcM) (by rw [hc]; exact hcE)
    (by rw [hc]
        rw [show ([b, a] : List String) = [b] ++ [a] from rfl,
          show ([a, b, c] : List String) = [a] ++ ([b] ++ (c :: []))
            from rfl,
          List.count_append, List.count_append, List.count_append,
          List.count_cons_self]
        omega)]
  rfl

theorem diffLocatesInsertedSpan_instance :
    (jsTrim "alpha" = "alpha" ∧ ("alpha" : String) ≠ "" ∧
      jsTrim "xray" ≠ "alpha" ∧ (jsTrim "xray").length ≠ 0) ∧
    findNewCodeRange ["alpha", "beta", "xray", "yankee", "gamma"]
      ("alpha" ++ "\n" ++ "beta" ++ "\n" ++ "gamma" ++ "\n") "ins" =
      (2, 4) :=
  ⟨⟨by decide, by decide, by decide, by decide⟩,
    diffLocatesInsertedSpan "alpha" "beta" "gamma" "xray" "yankee" "ins"
      (by decide) (by decide) (by decide) (by decide) (by decide)
      (by decide) (by decide) (by decide) (by decide) (by decide)
      (by decide) (by decide) (by decide) (by decide) (by decide)
      (by decide) (by decide) (by decide) (by decide) (by decide)
      (by decide) (by decide) (by decide) (by decide) (by decide)
      (by decide) (by decide)⟩
